import Mathlib

/-!
Verification of the ZVector dynamic-array library (src/src/zvector.c)
against its natural-language specification.

Shallow embedding conventions:
- A vector is modelled by the structure `ZVec`.  The C storage `void **data`
  (a buffer of `cap_left + cap_right` pointer slots) becomes
  `data : List (Option A)`: a slot holding a valid pointer is `some x`
  where `x` is the abstract element value (for by-value vectors the bytes
  stored behind the per-slot allocation, for by-reference vectors the
  caller's pointer itself); a NULL / vacant / uninitialised slot is `none`.
- The `flags` bit set is modelled by three booleans, one per property used
  by the code: `circular` for ZV_CIRCULAR, `byref` for ZV_BYREF,
  `sec_wipe` for ZV_SEC_WIPE.
- `zvect_index` values are modelled as `Nat`; the code never relies on
  wrap-around on the paths covered here (the single place where an
  unsigned underflow could occur, `p_vect_size(v) - 1` on an empty vector
  in `vect_pop`, is unreachable because `p_vect_remove_at` returns before
  using the index when the size is 0, which the model mirrors).
- `malloc` / `free` of element slots: allocation success is an explicit
  boolean argument where a claim depends on allocation failure; each call
  to `free` on an element pointer is recorded in a returned `freed` list
  holding the abstract value behind the freed pointer, so that claims
  about ownership (by-reference vectors) are statable.
- Secure wiping overwrites the bytes behind a pointer; it changes neither
  which pointer a slot holds nor the live structure, so it is not
  reflected in the abstract values (no claim depends on wiped bytes).
- The thread-safety layer (the priority lock of `check_mutex_lock` /
  `check_mutex_unlock`) acts on fields disjoint from the storage engine;
  it is modelled separately by `LockSt`.
- Loops of the adaptive binary search are written with an explicit fuel
  argument to make them structurally recursive; the fuel passed by
  `p_adaptive_binary_search` is proven (and in evaluations computed) to be
  large enough that the exhaustion branch is never taken.
-/

namespace ZVector

/-- Error codes of zvector.h (`zvect_retval` values relevant here). -/
inductive ZErr where
  | vectUndef
  | idxOutOfBound
  | outOfMem
  | vectCorrupted
  | raceCond
  | vectTooSmall
  | vectDataSize
  | vectEmpty
deriving Repr, DecidableEq

/-- The vector record `struct p_vector`.  `begin`/`end` are renamed
`vbegin`/`vend` (`end` is a Lean keyword).  The mutex fields live in
`LockSt` instead (they never interact with the storage fields). -/
structure ZVec (A : Type) where
  cap_left : Nat
  cap_right : Nat
  vbegin : Nat
  prev_end : Nat
  vend : Nat
  data_size : Nat
  circular : Bool
  byref : Bool
  sec_wipe : Bool
  data : List (Option A)
  init_capacity : Nat
  balance : Nat
  bottom : Nat
deriving Repr, DecidableEq

variable {A : Type}

/-- `p_vect_capacity`. -/
def p_vect_capacity (v : ZVec A) : Nat := v.cap_left + v.cap_right

/-- `p_vect_size` (`end - begin`). -/
def p_vect_size (v : ZVec A) : Nat := v.vend - v.vbegin

/-- The element behind live index `i` (the C read `v->data[v->begin + i]`). -/
def liveGet (v : ZVec A) (i : Nat) : Option A :=
  v.data.getD (v.vbegin + i) none

/-- The sequence of slots in the live range, `data[begin), ..., data[end)`. -/
def liveList (v : ZVec A) : List (Option A) :=
  (List.range (p_vect_size v)).map (liveGet v)

/-- Value of ZVECT_INITIAL_CAPACITY from zvector_config.h.  The header is
not part of src/; the default used by the library is 8.  No claim depends
on this value (all claims pass an explicit nonzero capacity). -/
def ZVECT_INITIAL_CAPACITY : Nat := 8

/-- Value of ZVECT_DEFAULT_DATA_SIZE from zvector_config.h (not in src/;
no claim depends on it). -/
def ZVECT_DEFAULT_DATA_SIZE : Nat := 8

/-- `vect_create(init_capacity, item_size, properties)`. -/
def vect_create (init_capacity item_size : Nat)
    (circular byref sec_wipe : Bool) : ZVec A :=
  let ds := if item_size = 0 then ZVECT_DEFAULT_DATA_SIZE else item_size
  let cl : Nat :=
    if init_capacity = 0 then ZVECT_INITIAL_CAPACITY / 2
    else (if init_capacity ≤ 4 then 4 else init_capacity) / 2
  let cr : Nat :=
    if init_capacity = 0 then ZVECT_INITIAL_CAPACITY / 2
    else (if init_capacity ≤ 4 then 4 else init_capacity) / 2
  let v : ZVec A :=
    { cap_left := cl, cap_right := cr, vbegin := 1, prev_end := 0, vend := 1,
      data_size := ds, circular := circular, byref := byref,
      sec_wipe := sec_wipe, data := List.replicate (cl + cr) none,
      init_capacity := cl + cr, balance := 0, bottom := 0 }
  if circular then { v with vend := cr - 1, vbegin := cl - 1 } else v

/-- `p_vect_put_at`: overwrite the slot at live index `i`.  For circular
vectors an out-of-range index is folded modulo `init_capacity`; the value
is stored without moving `begin`, `end` or the capacities.  (The byte-wipe
of the replaced pointer under ZV_BYREF + ZV_SEC_WIPE changes bytes behind
a pointer the vector no longer holds and is not visible in the model.) -/
def p_vect_put_at (v : ZVec A) (value : A) (i : Nat) :
    Option ZErr × ZVec A :=
  if ¬ v.circular then
    if i ≥ p_vect_size v then (some .idxOutOfBound, v)
    else (none, { v with data := v.data.set (v.vbegin + i) (some value) })
  else
    let idx := if i ≥ p_vect_size v then i % v.init_capacity else i
    (none, { v with data := v.data.set (v.vbegin + idx) (some value) })

/-- Model of `vect_memmove` on slot buffers: copy `cnt` slots from offset
`src` to offset `dst`, all values read from the original buffer (memmove
is aliasing-safe).  A read past the end of the buffer yields `none`
(in C it would read unowned memory); a write past the end is dropped.
The buffer length is always preserved. -/
def copyWithin (l : List (Option A)) (dst src cnt : Nat) : List (Option A) :=
  (List.range cnt).foldl (fun acc k => acc.set (dst + k) (l.getD (src + k) none)) l

/-- Model of `realloc` on a slot buffer: keep the first `m` slots, any new
slots are uninitialised (modelled `none`). -/
def resizeTo (m : Nat) (l : List (Option A)) : List (Option A) :=
  if m ≤ l.length then l.take m else l ++ List.replicate (m - l.length) none

/-- `p_vect_increase_capacity(v, direction)`.  Direction 0 doubles
`cap_left`: a fresh buffer is allocated, the live range is copied to
offset `cap_left` (the old value) and `begin`/`end` are updated; slots
outside the copied range are uninitialised.  Any nonzero direction doubles
`cap_right` by extending the buffer in place.  (Allocation is modelled as
succeeding: the callers in `p_vect_add_at` discard this function's return
value, so an allocation failure here would change nothing the claims
observe.) -/
def p_vect_increase_capacity (v : ZVec A) (direction : Nat) : ZVec A :=
  if direction = 0 then
    let new_capacity := v.cap_left * 2
    let nb := v.cap_left
    let ne := nb + (v.vend - v.vbegin)
    { v with
      data := List.replicate nb none ++ liveList v ++
              List.replicate (new_capacity + v.cap_right - ne) none,
      cap_left := new_capacity, vbegin := nb, vend := ne }
  else
    { v with
      data := resizeTo (v.cap_left + v.cap_right * 2) v.data,
      cap_right := v.cap_right * 2 }

/-- `p_vect_decrease_capacity(v, direction)`.  No-op when the capacity is
already at most `init_capacity`.  Direction 0 halves `cap_left` (floored
at `init_capacity / 2` and `size / 2`), allocating a fresh buffer and
recentering the live range at `new_capacity / 2`.  A nonzero direction
halves `cap_right` with the same floors by reallocating in place; `begin`
and `end` are NOT adjusted on this side, so live slots past
`cap_left + new_capacity` are cut off, exactly as the C `realloc` frees
them. -/
def p_vect_decrease_capacity (v : ZVec A) (direction : Nat) : ZVec A :=
  if p_vect_capacity v ≤ v.init_capacity then v
  else if direction = 0 then
    let nc0 := v.cap_left / 2
    let nc1 := if nc0 < v.init_capacity / 2 then v.init_capacity / 2 else nc0
    let new_capacity := max (p_vect_size v / 2) nc1
    let nb := new_capacity / 2
    let ne := nb + (v.vend - v.vbegin)
    { v with
      data := List.replicate nb none ++ liveList v ++
              List.replicate (new_capacity + v.cap_right - ne) none,
      cap_left := new_capacity, vbegin := nb, vend := ne }
  else
    let nc0 := v.cap_right / 2
    let nc1 := if nc0 < v.init_capacity / 2 then v.init_capacity / 2 else nc0
    let new_capacity := max (p_vect_size v / 2) nc1
    { v with
      data := resizeTo (v.cap_left + new_capacity) v.data,
      cap_right := new_capacity }

/-- One slot step of `p_free_items`: wipe/free the slot at buffer index
`j` unless the vector is by-reference.  Returns the freed pointers (as
abstract values) and the updated buffer (the code stores NULL into a
freed slot). -/
def p_free_slot (byref : Bool) (data : List (Option A)) (j : Nat) :
    List A × List (Option A) :=
  match data.getD j none with
  | some x => if byref then ([], data) else ([x], data.set j none)
  | none => ([], data)

/-- The descending loop of `p_free_items`, from `first + off` down to
`first` (structural recursion on `off`, mirroring the C loop's explicit
`j == first` break for unsigned indices). -/
def p_free_items_loop (byref : Bool) (b first : Nat) :
    Nat → List (Option A) → List A × List (Option A)
  | 0, data => p_free_slot byref data (b + first)
  | off + 1, data =>
    let (fr, d') := p_free_slot byref data (b + (first + (off + 1)))
    let (fr2, d'') := p_free_items_loop byref b first off d'
    (fr ++ fr2, d'')

/-- `p_free_items(v, first, offset)`. -/
def p_free_items (v : ZVec A) (first offset : Nat) : List A × ZVec A :=
  if p_vect_size v = 0 then ([], v)
  else
    let (fr, d') := p_free_items_loop v.byref v.vbegin first offset v.data
    (fr, { v with data := d' })

/-- `p_vect_add_at(v, value, i, action)` (ZVECT_FULL_REENTRANT = 0 path,
the default build).  `allocOk` models the success of the `malloc` for the
new element slot (by-value vectors only); capacity-growth allocation
failures are invisible because the C callers discard
`p_vect_increase_capacity`'s return value.  On the interior path the
failing `malloc` happens AFTER the shifting `memmove` and its NULL result
is stored into the slot, which the model reproduces. -/
def p_vect_add_at (v : ZVec A) (value : A) (i : Nat) (action : Int)
    (allocOk : Bool) : Option ZErr × ZVec A :=
  if v.circular then p_vect_put_at v value i
  else
    let vsize := p_vect_size v
    if i > vsize ∧ action = 0 then (some .idxOutOfBound, v)
    else
      let idx := if i > vsize then vsize - 1 else i
      let v1 :=
        if idx = 0 then
          if v.vbegin = 0 ∨ v.cap_left = 1 then p_vect_increase_capacity v 0 else v
        else
          if v.vend ≥ v.cap_right then p_vect_increase_capacity v 1 else v
      let base := if idx = 0 then v1.vbegin - 1 else v1.vbegin
      if idx = 0 ∧ ¬ v.byref ∧ ¬ allocOk then
        (some .outOfMem, { v1 with data := v1.data.set base none })
      else if idx = vsize ∧ idx ≠ 0 ∧ ¬ v.byref ∧ ¬ allocOk then
        (some .outOfMem, { v1 with data := v1.data.set (base + vsize) none })
      else
        let array_changed := idx < vsize ∧ idx ≠ 0
        let d2 := if idx < vsize ∧ idx ≠ 0 then
                    copyWithin v1.data (base + idx + 1) (base + idx) (vsize - idx)
                  else v1.data
        if array_changed ∧ ¬ v.byref ∧ ¬ allocOk then
          (some .outOfMem, { v1 with data := d2.set (base + idx) none })
        else
          let d3 := d2.set (base + idx) (some value)
          if idx = 0 then
            (none, { v1 with data := d3, prev_end := vsize, vbegin := base })
          else
            (none, { v1 with data := d3, prev_end := vsize, vend := v1.vend + 1 })

/-- `p_vect_remove_at(v, i, action)` (ZVECT_FULL_REENTRANT = 0 path).
Returns (error, extracted item, freed element pointers, new state).  The
item is the slot's pointer for by-reference vectors and a fresh copy of
the element bytes for by-value vectors; both are the slot's abstract
value.  Note the two `free` calls in the shift phase are NOT guarded by
ZV_BYREF in the C code, so they appear unconditionally here too. -/
def p_vect_remove_at (v : ZVec A) (i : Nat) (action : Int) :
    Option ZErr × Option A × List A × ZVec A :=
  let vsize := p_vect_size v
  if vsize = 0 then (none, none, [], v)
  else
    let idxE : Except ZErr Nat :=
      if ¬ v.circular then
        if i ≥ vsize then
          if action = 0 then .error .idxOutOfBound else .ok (vsize - 1)
        else .ok i
      else
        if i ≥ vsize then .ok (i % vsize) else .ok i
    match idxE with
    | .error e => (some e, none, [], v)
    | .ok idx =>
      if v.vbegin > v.vend then (some .vectCorrupted, none, [], v)
      else
        let base := v.vbegin
        let item := v.data.getD (base + idx) none
        let fr1 : List A :=
          if idx ≠ 0 then
            if idx < vsize - 1 ∧ 0 < vsize then
              match v.data.getD (base + idx) none with
              | some x => [x]
              | none => []
            else []
          else
            if base < v.vend then
              match v.data.getD base none with
              | some x => [x]
              | none => []
            else []
        let array_changed : Bool :=
          if idx ≠ 0 then decide (idx < vsize - 1 ∧ 0 < vsize)
          else decide (base < v.vend)
        let d1 :=
          if idx ≠ 0 ∧ idx < vsize - 1 ∧ 0 < vsize then
            copyWithin v.data (base + idx) (base + idx + 1) (vsize - idx)
          else v.data
        let v1 := { v with data := d1 }
        let (fr2, v2) :=
          if ¬ v.byref ∧ array_changed = false then p_free_items v1 (vsize - 1) 0
          else ([], v1)
        if ¬ v.circular then
          let v3 := { v2 with prev_end := vsize }
          let v4 :=
            if idx ≠ 0 then
              if v3.vbegin < v3.vend then { v3 with vend := v3.vend - 1 }
              else { v3 with vend := v3.vbegin }
            else
              if v3.vbegin < v3.vend then { v3 with vbegin := v3.vbegin + 1 }
              else { v3 with vbegin := v3.vend }
          let v5 :=
            if 4 * vsize < p_vect_capacity v4 then p_vect_decrease_capacity v4 idx
            else v4
          (none, item, fr1 ++ fr2, v5)
        else
          (none, item, fr1 ++ fr2, v2)

/-- `vect_push` (locking and the NULL-vector check stripped: the lock
layer is modelled separately and a model vector always exists). -/
def vect_push (v : ZVec A) (value : A) : Option ZErr × ZVec A :=
  p_vect_add_at v value (p_vect_size v) (-1) true

/-- `vect_add_at(v, value, i)`. -/
def vect_add_at (v : ZVec A) (value : A) (i : Nat) : Option ZErr × ZVec A :=
  p_vect_add_at v value i 0 true

/-- `vect_pop`. -/
def vect_pop (v : ZVec A) : Option ZErr × Option A × List A × ZVec A :=
  p_vect_remove_at v (p_vect_size v - 1) (-1)

/-- `vect_remove` (same internal call as `vect_pop`). -/
def vect_remove (v : ZVec A) : Option ZErr × Option A × List A × ZVec A :=
  p_vect_remove_at v (p_vect_size v - 1) (-1)

/-- `vect_remove_at(v, i)`. -/
def vect_remove_at (v : ZVec A) (i : Nat) :
    Option ZErr × Option A × List A × ZVec A :=
  p_vect_remove_at v i 0

/-- `vect_remove_front`. -/
def vect_remove_front (v : ZVec A) : Option ZErr × Option A × List A × ZVec A :=
  p_vect_remove_at v 0 0

/-- Write the list `seg` into the buffer starting at offset `pos`
(the final `p_vect_memcpy` of the rotate functions, copying the scratch
buffer back). -/
def writeSeg (l : List (Option A)) (pos : Nat) (seg : List (Option A)) :
    List (Option A) :=
  (List.range seg.length).foldl (fun acc k => acc.set (pos + k) (seg.getD k none)) l

/-- Read `cnt` slots starting at buffer offset `pos` (a `p_vect_memcpy`
into a scratch buffer). -/
def readSeg (l : List (Option A)) (pos cnt : Nat) : List (Option A) :=
  (List.range cnt).map (fun k => l.getD (pos + k) none)

/-- `vect_rotate_left(v, i)`.  NOTE the faithful `i == 1` special case: it
operates on absolute buffer offsets `0 .. size-1`, NOT on the live range
(the C code reads `v->data[0]` and writes `v->data[size - 1]` without
adding `v->begin`). -/
def vect_rotate_left (v : ZVec A) (i : Nat) : Option ZErr × ZVec A :=
  if i = 0 ∨ i = p_vect_size v then (none, v)
  else if i > p_vect_size v then (some .idxOutOfBound, v)
  else if i = 1 then
    let sz := p_vect_size v
    let temp := v.data.getD 0 none
    let d1 := copyWithin v.data 0 1 (sz - 1)
    (none, { v with data := d1.set (sz - 1) temp })
  else
    let sz := p_vect_size v
    let scratch := readSeg v.data v.vbegin i
    let d1 := copyWithin v.data v.vbegin (v.vbegin + i) (sz - i)
    (none, { v with data := writeSeg d1 (v.vbegin + (sz - i)) scratch })

/-- `vect_rotate_right(v, i)`.  Unlike its left sibling, the `i == 1`
special case correctly offsets by `v->begin`. -/
def vect_rotate_right (v : ZVec A) (i : Nat) : Option ZErr × ZVec A :=
  if i = 0 ∨ i = p_vect_size v then (none, v)
  else if i > p_vect_size v then (some .idxOutOfBound, v)
  else if i = 1 then
    let sz := p_vect_size v
    let temp := v.data.getD (v.vbegin + sz - 1) none
    let d1 := copyWithin v.data (v.vbegin + 1) v.vbegin (sz - 1)
    (none, { v with data := d1.set v.vbegin temp })
  else
    let sz := p_vect_size v
    let scratch := readSeg v.data (v.vbegin + (sz - i)) i
    let d1 := copyWithin v.data (v.vbegin + i) v.vbegin (sz - i)
    (none, { v with data := writeSeg d1 v.vbegin scratch })

/-- The sequence of slots `vect_apply(v, f)` invokes `f` on, in call
order: index `size-1` first, down to index 0 (the C loop
`for (i = size; i--;)`). -/
def vect_apply_trace (v : ZVec A) : List (Option A) :=
  (List.range (p_vect_size v)).reverse.map (liveGet v)

/-- The sequence of slots `vect_apply_range(v, f, x, y)` invokes `f` on,
in call order.  Faithful to the C normalisation: when `x > y` it sets
`start = x, end = y`, otherwise `start = y, end = x`, then runs an
ascending loop `for (i = start; i <= end; i++)`. -/
def vect_apply_range_trace (v : ZVec A) (x y : Nat) :
    Except ZErr (List (Option A)) :=
  if x > p_vect_size v ∨ y > p_vect_size v then .error .idxOutOfBound
  else
    let s := if x > y then x else y
    let e := if x > y then y else x
    .ok ((List.range (e + 1 - s)).map (fun k => liveGet v (s + k)))

/-- `vect_insert(v1, v2, s2, e2, s1)`: copies `v2`'s slots at indices
`s2 .. s2 + ee2` INCLUSIVE into `v1` via `vect_add_at`, where `ee2 = e2`
for a nonzero `e2` (the faithful off-by-one inclusive loop
`for (i = s2; i <= s2 + ee2; i++)`).  `vect_add_at` aborts the process on
error via `p_throw_error`, modelled by stopping with the error. -/
def vect_insert [Inhabited A] (v1 v2 : ZVec A) (s2 e2 s1 : Nat) :
    Except ZErr (ZVec A) :=
  if v1.data_size ≠ v2.data_size then .error .vectDataSize
  else if e2 > p_vect_size v2 ∨ s2 > p_vect_size v2 then .error .idxOutOfBound
  else
    let ee2 := if e2 = 0 then (p_vect_size v2 - 1) - s2 else e2
    (List.range (ee2 + 1)).foldlM
      (fun acc j =>
        match vect_add_at acc ((liveGet v2 (s2 + j)).getD default) (s1 + j) with
        | (none, v') => .ok v'
        | (some e, _) => .error e)
      v1

/-- The lock-relevant state of a vector: `lock_type` plus the recursive
mutex, abstracted as its hold depth. -/
structure LockSt where
  lock_type : Nat
  mutexDepth : Nat
deriving Repr, DecidableEq

/-- `check_mutex_lock(v, lock_type)` under the process-wide `lock_enabled`
toggle: acquire (and set `lock_type`) iff locking is enabled and the
caller's priority is at least the current `lock_type`.  Returns 1 (true)
iff this call became the lock owner. -/
def check_mutex_lock (enabled : Bool) (st : LockSt) (lock_type : Nat) :
    Bool × LockSt :=
  if enabled ∧ st.lock_type ≤ lock_type then
    (true, { lock_type := lock_type, mutexDepth := st.mutexDepth + 1 })
  else (false, st)

/-- `check_mutex_unlock(v, lock_type)`: release iff locking is enabled and
the caller's priority equals the current `lock_type`; on release the
`lock_type` is reset to 0 and the underlying mutex is unlocked. -/
def check_mutex_unlock (enabled : Bool) (st : LockSt) (lock_type : Nat) :
    Bool × LockSt :=
  if enabled ∧ lock_type = st.lock_type then
    (true, { lock_type := 0, mutexDepth := st.mutexDepth - 1 })
  else (false, st)

/-- The comparison the search code performs at live index `i`: the C call
`(*f1)(key, v->data[v->begin + i])` through the stored pointer.  Reading a
vacant / out-of-range slot would dereference unowned memory in C; the
model returns 0 there, and every theorem's hypotheses confine the search
to occupied live slots. -/
def cmpAt (v : ZVec A) (f1 : A → A → Int) (key : A) (i : Nat) : Int :=
  match v.data.getD (v.vbegin + i) none with
  | some x => f1 key x
  | none => 0

/-- The `monobound` loop of `p_adaptive_binary_search`:
`while (top > 3) do mid = top / 2; if key >= array[bot + mid] then bot +=
mid; top -= mid`.  Structural on `fuel`; `top` strictly decreases per
iteration, so fuel `top + 1` never runs out. -/
def monobound (g : Nat → Int) : Nat → Nat → Nat → Nat × Nat
  | 0, bot, top => (bot, top)
  | fuel + 1, bot, top =>
    if 3 < top then
      if 0 ≤ g (bot + top / 2) then monobound g fuel (bot + top / 2) (top - top / 2)
      else monobound g fuel bot (top - top / 2)
    else (bot, top)

/-- The final scan of `p_adaptive_binary_search`: `while (top)` decrement
`top` and test `key` against `array[bot + top]`; on equality report found
at `bot + top`, on `key` greater report not-found with insertion index
`bot + top + 1`, after the loop not-found with insertion index `bot`. -/
def finalScan (g : Nat → Int) (bot : Nat) : Nat → Bool × Nat
  | 0 => (false, bot)
  | t + 1 =>
    if g (bot + t) = 0 then (true, bot + t)
    else if 0 < g (bot + t) then (false, bot + t + 1)
    else finalScan g bot t

/-- The upward expansion loop of `p_adaptive_binary_search` (taken when
`key >= array[bottom]`): grow `bot` by doubling steps until the window
caps at the vector size or brackets the key. -/
def expandUp (g : Nat → Int) (sz : Nat) : Nat → Nat → Nat → Nat × Nat
  | 0, bot, top => (bot, top)
  | fuel + 1, bot, top =>
    if sz ≤ bot + top then (bot, sz - bot)
    else if g (bot + top) < 0 then (bot, top)
    else expandUp g sz fuel (bot + top) (top * 2)

/-- The downward expansion loop of `p_adaptive_binary_search` (taken when
`key < array[bottom]`): shrink `bot` by doubling steps until it
underflows to the start or brackets the key. -/
def expandDown (g : Nat → Int) : Nat → Nat → Nat → Nat × Nat
  | 0, bot, top => (bot, top)
  | fuel + 1, bot, top =>
    if bot < top then (0, bot)
    else if 0 ≤ g (bot - top) then (bot - top, top)
    else expandDown g fuel (bot - top) (top * 2)

/-- The initial window of `p_adaptive_binary_search`: a plain monobound
window over the whole vector when `balance >= 32 || size <= 64`,
otherwise an expansion around the remembered `bottom` with initial step
32, in the direction given by comparing the key at `bottom`. -/
def searchBounds (v : ZVec A) (g : Nat → Int) : Nat × Nat :=
  if 32 ≤ v.balance ∨ p_vect_size v ≤ 64 then (0, p_vect_size v)
  else if 0 ≤ g v.bottom then
    expandUp g (p_vect_size v) (p_vect_size v + 1) v.bottom 32
  else expandDown g (v.bottom + 1) v.bottom 32

/-- `p_adaptive_binary_search(v, key, *item_index, f1)`: returns the found
flag, the index written to `*item_index` (the match position, or the
insertion index when not found), and the vector with its positional state
(`balance`, `bottom`) updated. -/
def p_adaptive_binary_search (v : ZVec A) (key : A) (f1 : A → A → Int) :
    Bool × Nat × ZVec A :=
  let g := cmpAt v f1 key
  let sb := searchBounds v g
  let mb := monobound g (sb.2 + 1) sb.1 sb.2
  let v' := { v with
    balance := if v.bottom > mb.1 then v.bottom - mb.1 else mb.1 - v.bottom,
    bottom := mb.1 }
  let fi := finalScan g mb.1 mb.2
  (fi.1, fi.2, v')

/-- `vect_bsearch(v, key, f1, item_index)`: `*item_index` is modelled as
`Option Nat`, `none` when the function returns without writing it (NULL
key/comparator or empty vector).  Note the faithful `*item_index = 0`
overwrite on the not-found path. -/
def vect_bsearch (v : ZVec A) (key : A) (f1 : A → A → Int) :
    Bool × Option Nat × ZVec A :=
  if p_vect_size v = 0 then (false, none, v)
  else
    let r := p_adaptive_binary_search v key f1
    if r.1 then (true, some r.2.1, r.2.2) else (false, some 0, r.2.2)

/-- The live elements of a vector (occupied live slots, in order). -/
def elems (v : ZVec A) : List A := (liveList v).reduceOption

/-- An integer comparator with the qsort/bsearch contract (negative,
zero, positive). -/
def intCmp (a b : Int) : Int := a - b

/-- Sortedness of an element list under a comparator: adjacent pairs
compare non-positively. -/
def sortedBy (f1 : A → A → Int) : List A → Bool
  | [] => true
  | [_] => true
  | a :: b :: rest => decide (f1 a b ≤ 0) && sortedBy f1 (b :: rest)

/-! Concrete vector states used by the evaluations.  Elements are `Nat`
(abstract element values; for by-reference vectors, abstract pointer
identities).  Each state satisfies the spec's data-model invariants:
`begin ≤ end ≤ cap_left + cap_right` and `data.length = cap_left +
cap_right`, with live slots all occupied. -/

/-- A by-reference vector holding the caller pointers 101, 102, 103. -/
def vByref : ZVec Nat :=
  { cap_left := 2, cap_right := 6, vbegin := 1, prev_end := 0, vend := 4,
    data_size := 8, circular := false, byref := true, sec_wipe := false,
    data := [none, some 101, some 102, some 103, none, none, none, none],
    init_capacity := 8, balance := 0, bottom := 0 }

/-- A by-value vector holding 10, 20, 30 with the usual creation-time
offset `begin = 1`. -/
def vRot : ZVec Nat :=
  { cap_left := 2, cap_right := 2, vbegin := 1, prev_end := 0, vend := 4,
    data_size := 4, circular := false, byref := false, sec_wipe := false,
    data := [none, some 10, some 20, some 30],
    init_capacity := 4, balance := 0, bottom := 0 }

/-- A by-value vector holding the single element 50. -/
def vIns1 : ZVec Nat :=
  { cap_left := 2, cap_right := 2, vbegin := 1, prev_end := 0, vend := 2,
    data_size := 4, circular := false, byref := false, sec_wipe := false,
    data := [none, some 50, none, none],
    init_capacity := 4, balance := 0, bottom := 0 }

/-- A by-value vector holding 1, 2, 3. -/
def vIns2 : ZVec Nat :=
  { cap_left := 2, cap_right := 2, vbegin := 1, prev_end := 0, vend := 4,
    data_size := 4, circular := false, byref := false, sec_wipe := false,
    data := [none, some 1, some 2, some 3],
    init_capacity := 4, balance := 0, bottom := 0 }

/-- A by-value vector of 7 elements whose live range sits deep in the
right capacity half: `begin = 24`, `end = 31`, `cap_left = 2`,
`cap_right = 32` (such lopsided geometries arise because removals at the
head advance `begin` without moving the buffer).  It satisfies the spec's
invariants: `begin ≤ end ≤ cap_left + cap_right = 34 = data.length`. -/
def vDeep : ZVec Nat :=
  { cap_left := 2, cap_right := 32, vbegin := 24, prev_end := 0, vend := 31,
    data_size := 4, circular := false, byref := false, sec_wipe := false,
    data := List.replicate 24 none ++
            [some 1, some 2, some 3, some 4, some 5, some 6, some 7] ++
            List.replicate 3 none,
    init_capacity := 4, balance := 0, bottom := 0 }

/-- Claim C1: for every circular vector, from creation on, `end - begin =
cap_left + cap_right - 1` and `capacity = init_capacity`.  This FAILS on
the code: `vect_create` sets `begin = cap_left - 1` and `end = cap_right
- 1`, which are equal, so the logical size is 0 immediately after
creation (here: 0, not 7), and it stays 0 because circular adds delegate
to `p_vect_put_at`, which never moves `begin` or `end`.  The `capacity =
init_capacity` half does hold.  The evaluation below exhibits the
divergence at `vect_create(8, 4, ZV_CIRCULAR)` and on a subsequent
`vect_add` (= `p_vect_add_at` at the tail). -/
theorem c1_circular_create_eval :
    p_vect_size (vect_create 8 4 true false false : ZVec Nat) = 0 ∧
    p_vect_capacity (vect_create 8 4 true false false : ZVec Nat) =
      (vect_create 8 4 true false false : ZVec Nat).init_capacity ∧
    (vect_create 8 4 true false false : ZVec Nat).init_capacity = 8 ∧
    p_vect_size (vect_create 8 4 true false false : ZVec Nat) ≠
      p_vect_capacity (vect_create 8 4 true false false : ZVec Nat) - 1 ∧
    p_vect_size (p_vect_add_at (vect_create 8 4 true false false : ZVec Nat)
      42 0 (-1) true).2 = 0 := by
  decide

/-- Claim C3: removing an element of a by-reference vector never frees the
stored pointer.  This FAILS on the code: for an interior index the shift
phase of `p_vect_remove_at` executes `free(v->data[base + idx])` with no
ZV_BYREF guard (unlike `p_free_items` and the tail path, which are
guarded).  Evaluating `vect_remove_at` at index 1 of the by-reference
vector holding pointers 101, 102, 103: the call succeeds, returns the
original pointer 102, but the freed-pointer list is exactly the
caller-owned 102 — contradicting the claim, which requires it empty. -/
theorem c3_byref_remove_frees_eval :
    (vect_remove_at vByref 1).1 = none ∧
    (vect_remove_at vByref 1).2.1 = some 102 ∧
    (vect_remove_at vByref 1).2.2.1 = [102] ∧
    (vect_remove_at vByref 1).2.2.1 ≠ ([] : List Nat) ∧
    liveList (vect_remove_at vByref 1).2.2.2 = [some 101, some 103] := by
  decide

/-- Claim C4: `rotate-left(k)` then `rotate-right(k)` is the identity on
the element order, including `k = 1`.  This FAILS for `k = 1`: the `i ==
1` special case of `vect_rotate_left` rotates the absolute buffer slots
`0 .. size-1` instead of the live range (it forgets `v->begin`, which its
own general branch and both `vect_rotate_right` branches apply).  On the
vector holding 10, 20, 30 at `begin = 1`, the composition yields the live
sequence 30, 20, vacant instead of 10, 20, 30. -/
theorem c4_rotate_identity_k1_eval :
    (vect_rotate_left vRot 1).1 = none ∧
    (vect_rotate_right (vect_rotate_left vRot 1).2 1).1 = none ∧
    liveList (vect_rotate_right (vect_rotate_left vRot 1).2 1).2 =
      [some 30, some 20, none] ∧
    liveList (vect_rotate_right (vect_rotate_left vRot 1).2 1).2 ≠
      liveList vRot := by
  decide

/-- Claim C5: `vect_apply_range(v, f, x, y)` with `x ≤ y` invokes `f` on
indices `x .. y` ascending, and `vect_apply` visits all elements
tail-first.  The range half FAILS on the code: the normalisation is
inverted (`x > y` sets `start = x, end = y`; otherwise `start = y, end =
x`), so for `x < y` the ascending loop `for (i = start; i <= end; i++)`
starts above its bound and `f` is invoked on NOTHING.  On the vector
holding 10, 20, 30 with `x = 0, y = 2` the call trace is empty instead of
the three slots; the `vect_apply` half does behave as claimed
(tail-first). -/
theorem c5_apply_range_empty_eval :
    (vect_apply_range_trace vRot 0 2).toOption = some [] ∧
    ([] : List (Option Nat)) ≠ [some 10, some 20, some 30] ∧
    vect_apply_trace vRot = [some 30, some 20, some 10] := by
  decide

/-- Claim C6: a successful `vect_insert(v1, v2, s2, e2, s1)` inserts
exactly `e2` elements, the half-open range `s2 .. s2+e2`.  This FAILS on
the code: the copy loop `for (i = s2; i <= s2 + ee2; i++)` is inclusive,
inserting `e2 + 1` elements — contradicting the function's own comment
("inserts the specified number of elements").  With `v1 = [50]`,
`v2 = [1, 2, 3]`, `s2 = 0`, `e2 = 2`, `s1 = 0`: the size of `v1` grows by
3, not 2, and all three of `v2`'s elements are inserted. -/
theorem c6_insert_offbyone_eval :
    ((vect_insert vIns1 vIns2 0 2 0).toOption.map p_vect_size) = some 4 ∧
    ((vect_insert vIns1 vIns2 0 2 0).toOption.map liveList) =
      some [some 1, some 2, some 3, some 50] ∧
    (4 : Nat) ≠ p_vect_size vIns1 + 2 := by
  decide

/-- Claim C7: `vect_push(v, x)` then `vect_pop(v)` returns `x`, restores
the size, and leaves the remaining element sequence unchanged, for every
non-circular vector.  The first two parts hold, but the sequence part
FAILS on the code: when the pop triggers the capacity-shrink check
(`4 * size < capacity`) at a nonzero index, `p_vect_decrease_capacity`
halves `cap_right` by reallocating the buffer down to `cap_left +
new_cap_right` slots WITHOUT moving the live range (the left-shrink
branch recentres precisely to avoid this), so live slots beyond the new
buffer end are freed by `realloc` and their elements are lost.  On the
spec-invariant-satisfying state `vDeep` (7 elements at `begin = 24`,
capacity 34): push 99 then pop returns 99 and restores size 7, but the
buffer is cut to 18 slots and all 7 remaining elements are gone. -/
theorem c7_push_pop_shrink_eval :
    (vect_pop (vect_push vDeep 99).2).1 = none ∧
    (vect_pop (vect_push vDeep 99).2).2.1 = some 99 ∧
    p_vect_size (vect_pop (vect_push vDeep 99).2).2.2.2 = p_vect_size vDeep ∧
    liveList (vect_pop (vect_push vDeep 99).2).2.2.2 =
      List.replicate 7 none ∧
    liveList (vect_pop (vect_push vDeep 99).2).2.2.2 ≠ liveList vDeep := by
  decide

/-- Claim C9: with locking enabled (the process-wide default), an
acquisition at priority `p` succeeds iff `p ≥ lock_type`, and then sets
`lock_type = p` and takes the mutex; a release at priority `p` takes
effect iff `p = lock_type`, and then resets `lock_type` to 0 and unlocks
the underlying mutex.  Confirmed: the full characterisation of
`check_mutex_lock` and `check_mutex_unlock`. -/
theorem c9_lock_admission (st : LockSt) (p : Nat) :
    ((check_mutex_lock true st p).1 = true ↔ st.lock_type ≤ p) ∧
    check_mutex_lock true st p =
      (if st.lock_type ≤ p then
        (true, { lock_type := p, mutexDepth := st.mutexDepth + 1 })
       else (false, st)) ∧
    ((check_mutex_unlock true st p).1 = true ↔ p = st.lock_type) ∧
    check_mutex_unlock true st p =
      (if p = st.lock_type then
        (true, { lock_type := 0, mutexDepth := st.mutexDepth - 1 })
       else (false, st)) := by
  refine ⟨?_, ?_, ?_, ?_⟩ <;>
    simp only [check_mutex_lock, check_mutex_unlock, true_and] <;>
    split <;> simp_all

/-- Claim C10: on an empty vector, `vect_pop`, `vect_remove`,
`vect_remove_at` and `vect_remove_front` all return NULL, report success
(no error of any kind) and leave the vector unchanged.  Confirmed:
`p_vect_remove_at` returns 0 with `*item` untouched before any bounds
check or mutation when the size is 0. -/
theorem c10_remove_empty_success (v : ZVec A) (i : Nat)
    (h : p_vect_size v = 0) :
    vect_pop v = (none, none, [], v) ∧
    vect_remove v = (none, none, [], v) ∧
    vect_remove_at v i = (none, none, [], v) ∧
    vect_remove_front v = (none, none, [], v) := by
  refine ⟨?_, ?_, ?_, ?_⟩ <;>
    simp [vect_pop, vect_remove, vect_remove_at, vect_remove_front,
      p_vect_remove_at, h]

/-- Witness for C10 at the empty vector produced by
`vect_create(8, 4, 0)` and index 5. -/
theorem c10_remove_empty_success_witness :
    p_vect_size (vect_create 8 4 false false false : ZVec Nat) = 0 ∧
    vect_remove_at (vect_create 8 4 false false false : ZVec Nat) 5 =
      (none, none, [], (vect_create 8 4 false false false : ZVec Nat)) :=
  ⟨by decide,
   (c10_remove_empty_success (vect_create 8 4 false false false) 5
     (by decide)).2.2.1⟩

/-- The sorted vector 1, 2, 3 (element type `Int`), with the adaptive
search's positional state at its initial values. -/
def vSearch : ZVec Int :=
  { cap_left := 2, cap_right := 2, vbegin := 1, prev_end := 0, vend := 4,
    data_size := 8, circular := false, byref := false, sec_wipe := false,
    data := [none, some 1, some 2, some 3],
    init_capacity := 4, balance := 0, bottom := 0 }

theorem monobound_bound {g : Nat → Int} {s : Nat} :
    ∀ fuel bot top, bot + top ≤ s →
      (monobound g fuel bot top).1 + (monobound g fuel bot top).2 ≤ s := by
  intro fuel
  induction fuel with
  | zero => intro bot top h; simpa [monobound] using h
  | succ n ih =>
    intro bot top h
    simp only [monobound]
    split
    · split
      · exact ih _ _ (by omega)
      · exact ih _ _ (by omega)
    · simpa using h

theorem finalScan_found {g : Nat → Int} {bot : Nat} :
    ∀ top, (finalScan g bot top).1 = true →
      ∃ t, t < top ∧ g (bot + t) = 0 := by
  intro top
  induction top with
  | zero => simp [finalScan]
  | succ t ih =>
    intro h
    simp only [finalScan] at h
    split at h
    · exact ⟨t, by omega, by assumption⟩
    · split at h
      · simp at h
      · obtain ⟨u, hu, hg⟩ := ih h
        exact ⟨u, by omega, hg⟩

theorem expandUp_bound {g : Nat → Int} {sz : Nat} :
    ∀ fuel bot top, bot < sz → 1 ≤ top → sz - bot < fuel →
      (expandUp g sz fuel bot top).1 + (expandUp g sz fuel bot top).2 ≤ sz := by
  intro fuel
  induction fuel with
  | zero => intro bot top h1 h2 h3; omega
  | succ n ih =>
    intro bot top h1 h2 h3
    simp only [expandUp]
    split
    · omega
    · split
      · omega
      · exact ih (bot + top) (top * 2) (by omega) (by omega) (by omega)

theorem expandDown_bound {g : Nat → Int} {sz : Nat} :
    ∀ fuel bot top, bot < sz → 1 ≤ top → bot < fuel →
      (expandDown g fuel bot top).1 + (expandDown g fuel bot top).2 ≤ sz := by
  intro fuel
  induction fuel with
  | zero => intro bot top h1 h2 h3; omega
  | succ n ih =>
    intro bot top h1 h2 h3
    simp only [expandDown]
    split
    · omega
    · split
      · omega
      · exact ih (bot - top) (top * 2) (by omega) (by omega) (by omega)

theorem searchBounds_le {v : ZVec A} {g : Nat → Int}
    (hbot : v.bottom < p_vect_size v) :
    (searchBounds v g).1 + (searchBounds v g).2 ≤ p_vect_size v := by
  simp only [searchBounds]
  split
  · simp
  · split
    · exact expandUp_bound _ _ _ hbot (by omega) (by omega)
    · exact expandDown_bound _ _ _ hbot (by omega) (by omega)

/-- Claim C2 (amended): for a sorted vector, a key not present in it and
a positive size (with the remembered search position in range),
`vect_bsearch` returns false and stores 0 — not the insertion index —
in `*item_index`; the insertion index is computed by the internal
`p_adaptive_binary_search` (and consumed only by `vect_add_ordered`) but
`vect_bsearch` overwrites it with 0 before returning. -/
theorem c2_bsearch_notfound_zero (v : ZVec A) (key : A) (f1 : A → A → Int)
    (_hsorted : sortedBy f1 (elems v) = true)
    (hsz : 0 < p_vect_size v)
    (hbot : v.bottom < p_vect_size v)
    (hnp : ∀ i, i < p_vect_size v → cmpAt v f1 key i ≠ 0) :
    (vect_bsearch v key f1).1 = false ∧
    (vect_bsearch v key f1).2.1 = some 0 := by
  have hfalse : (p_adaptive_binary_search v key f1).1 = false := by
    by_contra hb
    have htrue : (p_adaptive_binary_search v key f1).1 = true := by
      simpa using hb
    simp only [p_adaptive_binary_search] at htrue
    obtain ⟨t, ht, hg⟩ := finalScan_found _ htrue
    have hsb : (searchBounds v (cmpAt v f1 key)).1 +
        (searchBounds v (cmpAt v f1 key)).2 ≤ p_vect_size v :=
      searchBounds_le hbot
    have hmb := monobound_bound (g := cmpAt v f1 key)
      ((searchBounds v (cmpAt v f1 key)).2 + 1)
      (searchBounds v (cmpAt v f1 key)).1
      (searchBounds v (cmpAt v f1 key)).2 hsb
    exact hnp _ (by omega) hg
  have hne : ¬ p_vect_size v = 0 := by omega
  constructor <;> simp [vect_bsearch, hne, hfalse]

/-- Witness for the amended C2 at the sorted vector 1, 2, 3 and the
absent key 10. -/
theorem c2_bsearch_notfound_zero_witness :
    (sortedBy intCmp (elems vSearch) = true ∧
     0 < p_vect_size vSearch ∧
     vSearch.bottom < p_vect_size vSearch ∧
     ∀ i, i < p_vect_size vSearch → cmpAt vSearch intCmp 10 i ≠ 0) ∧
    (vect_bsearch vSearch 10 intCmp).1 = false ∧
    (vect_bsearch vSearch 10 intCmp).2.1 = some 0 :=
  ⟨⟨by decide, by decide, by decide, by decide⟩,
   c2_bsearch_notfound_zero vSearch 10 intCmp (by decide) (by decide)
     (by decide) (by decide)⟩

/-- Counterexample to claim C2 as stated: on the sorted vector 1, 2, 3
and the absent key 4, `vect_bsearch` returns false but stores 0 in
`*item_index`, while the insertion index is 3 (the internal
`p_adaptive_binary_search` computes 3; inserting 4 at index 0 breaks the
order, inserting it at index 3 keeps it — matching the spec's own
scenario "bsearch for 4: not found, insertion index 3"). -/
theorem c2_bsearch_counterexample :
    (vect_bsearch vSearch 4 intCmp).1 = false ∧
    (vect_bsearch vSearch 4 intCmp).2.1 = some 0 ∧
    (p_adaptive_binary_search vSearch 4 intCmp).2.1 = 3 ∧
    sortedBy intCmp (4 :: elems vSearch) = false ∧
    sortedBy intCmp (elems vSearch ++ [4]) = true ∧
    (0 : Nat) ≠ 3 := by
  refine ⟨by decide, by decide, by decide, by decide, by decide, by decide⟩

theorem copyWithin_succ (l : List (Option A)) (dst src cnt : Nat) :
    copyWithin l dst src (cnt + 1) =
      (copyWithin l dst src cnt).set (dst + cnt) (l.getD (src + cnt) none) := by
  simp [copyWithin, List.range_succ]

theorem copyWithin_length (l : List (Option A)) (dst src : Nat) :
    ∀ cnt, (copyWithin l dst src cnt).length = l.length := by
  intro cnt
  induction cnt with
  | zero => simp [copyWithin]
  | succ n ih => rw [copyWithin_succ]; simp [ih]

theorem copyWithin_getD (l : List (Option A)) (dst src : Nat) (j : Nat)
    (hj : j < l.length) :
    ∀ cnt, (copyWithin l dst src cnt).getD j none =
      if dst ≤ j ∧ j < dst + cnt then l.getD (src + (j - dst)) none
      else l.getD j none := by
  intro cnt
  induction cnt with
  | zero =>
    rw [if_neg (by omega)]
    simp [copyWithin]
  | succ n ih =>
    rw [copyWithin_succ]
    by_cases hc : j = dst + n
    · subst hc
      have hlt : dst + n < (copyWithin l dst src n).length := by
        rw [copyWithin_length]; exact hj
      rw [if_pos (by omega), List.getD_eq_getElem?_getD,
        List.getElem?_set_self hlt]
      have harith : src + (dst + n - dst) = src + n := by omega
      simp [harith]
    · rw [List.getD_eq_getElem?_getD, List.getElem?_set_ne (by omega),
        ← List.getD_eq_getElem?_getD, ih]
      by_cases hc2 : dst ≤ j ∧ j < dst + n
      · rw [if_pos hc2, if_pos (by omega)]
      · rw [if_neg hc2, if_neg (by omega)]

/-- A by-value vector holding 10, 20, 30 with ample right headroom, used
for the C8 out-of-memory evaluations. -/
def vOom : ZVec Nat :=
  { cap_left := 2, cap_right := 8, vbegin := 1, prev_end := 0, vend := 4,
    data_size := 4, circular := false, byref := false, sec_wipe := false,
    data := [none, some 10, some 20, some 30, none, none, none, none, none, none],
    init_capacity := 4, balance := 0, bottom := 0 }

/-- Counterexample to claim C8 as stated: an interior `vect_add_at` whose
element allocation fails with out-of-memory does NOT leave the vector's
observable state unchanged.  On the vector holding 10, 20, 30, adding at
index 1 with the element `malloc` failing returns the out-of-memory
error, yet the live element sequence has become 10, vacant, 20: the
shifting `memmove` already ran, the failing `malloc`'s NULL result was
stored into slot 1, and the former last element 30 was pushed out of the
live range. -/
theorem c8_oom_counterexample :
    (p_vect_add_at vOom 99 1 0 false).1 = some .outOfMem ∧
    liveList (p_vect_add_at vOom 99 1 0 false).2 = [some 10, none, some 20] ∧
    liveList (p_vect_add_at vOom 99 1 0 false).2 ≠ liveList vOom := by
  refine ⟨by decide, by decide, by decide⟩

/-- Claim C8 (amended): when an interior add-at fails on the element
allocation with out-of-memory (no capacity growth being triggered), the
error is surfaced and `begin`, `end` and both capacities are unchanged —
so the size is preserved — but the element sequence is NOT restored:
slots below the insertion index keep their elements, the slot at the
insertion index is left vacated (the failing allocation's NULL result is
stored there), and every slot above it holds its left neighbour's former
element, the old last element having been shifted out of the live range.
Strong exception safety therefore fails for this operation. -/
theorem c8_interior_add_oom (v : ZVec A) (x : A) (i : Nat)
    (hcirc : v.circular = false) (hbyref : v.byref = false)
    (h0 : 0 < i) (hin : i < p_vect_size v)
    (hbe : v.vbegin ≤ v.vend)
    (hlen : v.data.length = v.cap_left + v.cap_right)
    (hend : v.vend < v.cap_right) :
    (p_vect_add_at v x i 0 false).1 = some .outOfMem ∧
    (p_vect_add_at v x i 0 false).2.vbegin = v.vbegin ∧
    (p_vect_add_at v x i 0 false).2.vend = v.vend ∧
    (p_vect_add_at v x i 0 false).2.cap_left = v.cap_left ∧
    (p_vect_add_at v x i 0 false).2.cap_right = v.cap_right ∧
    liveGet (p_vect_add_at v x i 0 false).2 i = none ∧
    (∀ j, j < i → liveGet (p_vect_add_at v x i 0 false).2 j = liveGet v j) ∧
    (∀ j, i < j → j < p_vect_size v →
      liveGet (p_vect_add_at v x i 0 false).2 j = liveGet v (j - 1)) := by
  have hsz : p_vect_size v = v.vend - v.vbegin := rfl
  have hnb : v.vbegin + p_vect_size v < v.data.length := by omega
  have hgt : ¬ i > p_vect_size v := by omega
  have hne0 : ¬ i = 0 := by omega
  have hge : ¬ v.vend ≥ v.cap_right := by omega
  have hnv : ¬ i = p_vect_size v := by omega
  have hres : p_vect_add_at v x i 0 false =
      (some .outOfMem,
       { v with data := (copyWithin v.data (v.vbegin + i + 1) (v.vbegin + i)
                          (p_vect_size v - i)).set (v.vbegin + i) none }) := by
    simp [p_vect_add_at, hcirc, hbyref, hgt, hne0, hge, hnv, hin]
  rw [hres]
  have hcwlen : ((copyWithin v.data (v.vbegin + i + 1) (v.vbegin + i)
      (p_vect_size v - i)).length) = v.data.length := copyWithin_length _ _ _ _
  refine ⟨rfl, rfl, rfl, rfl, rfl, ?_, ?_, ?_⟩
  · show ((copyWithin v.data (v.vbegin + i + 1) (v.vbegin + i)
        (p_vect_size v - i)).set (v.vbegin + i) none).getD (v.vbegin + i) none = none
    rw [List.getD_eq_getElem?_getD, List.getElem?_set_self (by omega)]
    simp
  · intro j hj
    show ((copyWithin v.data (v.vbegin + i + 1) (v.vbegin + i)
        (p_vect_size v - i)).set (v.vbegin + i) none).getD (v.vbegin + j) none =
      v.data.getD (v.vbegin + j) none
    rw [List.getD_eq_getElem?_getD, List.getElem?_set_ne (by omega),
      ← List.getD_eq_getElem?_getD,
      copyWithin_getD _ _ _ _ (by omega), if_neg (by omega)]
  · intro j hj hjn
    show ((copyWithin v.data (v.vbegin + i + 1) (v.vbegin + i)
        (p_vect_size v - i)).set (v.vbegin + i) none).getD (v.vbegin + j) none =
      v.data.getD (v.vbegin + (j - 1)) none
    rw [List.getD_eq_getElem?_getD, List.getElem?_set_ne (by omega),
      ← List.getD_eq_getElem?_getD,
      copyWithin_getD _ _ _ _ (by omega), if_pos (by omega)]
    have : v.vbegin + i + (v.vbegin + j - (v.vbegin + i + 1)) =
        v.vbegin + (j - 1) := by omega
    rw [this]

/-- Witness for the amended C8 at the concrete vector holding 10, 20, 30,
inserting at index 1: the error is raised, geometry is intact, slot 1 is
vacated, slot 0 keeps 10 and slot 2 now holds the former slot 1 (20). -/
theorem c8_interior_add_oom_witness :
    ((vOom.circular = false) ∧ (vOom.byref = false) ∧ 0 < 1 ∧
      1 < p_vect_size vOom ∧ vOom.vbegin ≤ vOom.vend ∧
      vOom.data.length = vOom.cap_left + vOom.cap_right ∧
      vOom.vend < vOom.cap_right) ∧
    (p_vect_add_at vOom 99 1 0 false).1 = some .outOfMem ∧
    (p_vect_add_at vOom 99 1 0 false).2.vend = vOom.vend ∧
    liveGet (p_vect_add_at vOom 99 1 0 false).2 1 = none ∧
    liveGet (p_vect_add_at vOom 99 1 0 false).2 0 = liveGet vOom 0 ∧
    liveGet (p_vect_add_at vOom 99 1 0 false).2 2 = liveGet vOom 1 := by
  have h := c8_interior_add_oom vOom 99 1 (by decide) (by decide) (by decide)
    (by decide) (by decide) (by decide) (by decide)
  exact ⟨⟨by decide, by decide, by decide, by decide, by decide, by decide,
    by decide⟩, h.1, h.2.2.1, h.2.2.2.2.2.1,
    h.2.2.2.2.2.2.1 0 (by decide), h.2.2.2.2.2.2.2 2 (by decide) (by decide)⟩

end ZVector
